import Mathlib

/-
  Verification development for the Animix animation engine
  (src/controller/mainpage.js).  The numeric model uses ℚ for the
  engine's numbers; strings are modelled with Lean strings and
  character lists.  NaN-producing corner inputs of the JavaScript
  (e.g. `parseFloat` failing inside a relative-position fallback) are
  tracked with explicit Option results or a poison flag where they can
  occur.
-/

namespace Animix

/-! ### Basic helpers (clamp, parseFloat, string utilities) -/

/-- clamp(v, a, b) = Math.max(a, Math.min(b, v)). -/
def clamp (v a b : ℚ) : ℚ := max a (min b v)

/-- Math.round: floor(x + 1/2). -/
def jsRound (q : ℚ) : ℤ := Int.floor (q + 1/2)

def natOfDigits (l : List Char) : ℕ :=
  l.foldl (fun a c => a * 10 + (c.toNat - 48)) 0

/-- parseFloat on an already-trimmed string: optional sign, digits,
optional fractional part; trailing junk is ignored, no digits gives
NaN (modelled as none). -/
def parseFloatQ (s : String) : Option ℚ :=
  let cs := s.data
  let sgn : ℚ × List Char :=
    match cs with
    | '-' :: t => (-1, t)
    | '+' :: t => (1, t)
    | _ => (1, cs)
  let ip := sgn.2.takeWhile Char.isDigit
  let r1 := sgn.2.dropWhile Char.isDigit
  let fp :=
    match r1 with
    | '.' :: t => t.takeWhile Char.isDigit
    | _ => []
  if ip.isEmpty && fp.isEmpty then none
  else some (sgn.1 * ((natOfDigits ip : ℚ) + (natOfDigits fp : ℚ) / (10 : ℚ) ^ fp.length))

def isWS (c : Char) : Bool := c.isWhitespace

def trimL (l : List Char) : List Char :=
  ((l.dropWhile isWS).reverse.dropWhile isWS).reverse

def strTrim (s : String) : String := String.mk (trimL s.data)

def lowerL (l : List Char) : List Char := l.map Char.toLower

/-- Bool test that `pat` begins `l`. -/
def leadMatch : List Char → List Char → Bool
  | [], _ => true
  | _ :: _, [] => false
  | a :: as, b :: bs => a == b && leadMatch as bs

/-- split a char list on separator chars, like the JS
`split(/\s+|,|\//)` used by the colour parser (empties filtered by the
caller). -/
def splitOnSep (p : Char → Bool) : List Char → List (List Char)
  | [] => [[]]
  | c :: t =>
    let r := splitOnSep p t
    if p c then [] :: r
    else
      match r with
      | h :: t2 => (c :: h) :: t2
      | [] => [[c]]

def colorSep (c : Char) : Bool := c = ',' || c = '/' || isWS c

/-- `inner.split(/\s+|,|\//).map(p => p.trim()).filter(Boolean)`. -/
def splitParts (s : String) : List String :=
  ((splitOnSep colorSep s.data).map (fun l => String.mk (trimL l))).filter (fun x => x ≠ "")

def digitChar (d : ℕ) : Char := Char.ofNat (48 + d)

def natDigitsAux : ℕ → ℕ → List Char
  | 0, _ => []
  | fuel + 1, n => if n < 10 then [digitChar n] else natDigitsAux fuel (n / 10) ++ [digitChar (n % 10)]

def natStr (n : ℕ) : String := String.mk (natDigitsAux (n + 1) n)

def intStr (z : ℤ) : String := if z < 0 then "-" ++ natStr z.natAbs else natStr z.natAbs

/-! ### Easing library (parseEase, linear, makePower) -/

def linearEase (t : ℚ) : ℚ := t

def powIn (n : ℕ) (t : ℚ) : ℚ := t ^ n

def powOut (n : ℕ) (t : ℚ) : ℚ := 1 - (1 - t) ^ n

def powInOut (n : ℕ) (t : ℚ) : ℚ :=
  if t < 1/2 then (1/2) * (t * 2) ^ n else 1 - (1/2) * ((1 - t) * 2) ^ n

inductive PowVariant
  | pin
  | pout
  | pinOut
deriving DecidableEq

/-- an easing the name-based `parseEase` can return: linear, or one of
the power-family functions. -/
inductive EaseChoice
  | elinear
  | epower (n : ℕ) (v : PowVariant)
deriving DecidableEq

/-- `_powers[n] || _powers[2]`: only 1..4 exist, anything else falls
back to 2. -/
def powersIdx (n : ℕ) : ℕ := if n = 1 ∨ n = 2 ∨ n = 3 ∨ n = 4 then n else 2

def easeFn : EaseChoice → ℚ → ℚ
  | .elinear => linearEase
  | .epower n v =>
    match v with
    | .pin => powIn (powersIdx n)
    | .pout => powOut (powersIdx n)
    | .pinOut => powInOut (powersIdx n)

/-- the `^power(\d)(?:\.(inout|in|out))?$` pattern: one digit after
"power", then optionally a dot and a variant token. -/
def matchPowerTok (s : String) : Option (ℕ × Option String) :=
  match s.data with
  | 'p' :: 'o' :: 'w' :: 'e' :: 'r' :: d :: rest =>
    if d.isDigit then
      match rest with
      | [] => some (d.toNat - 48, none)
      | '.' :: vr =>
        let v := String.mk vr
        if v = "inout" ∨ v = "in" ∨ v = "out" then some (d.toNat - 48, some v) else none
      | _ => none
    else none
  | _ => none

/-- parseEase on a name token (a direct function value is passed
through unchanged in the source and is outside the name-based family). -/
def parseEase (e : Option String) : EaseChoice :=
  match e with
  | none => .elinear
  | some s0 =>
    if s0 = "" then .elinear
    else
      let s := String.mk (lowerL (trimL s0.data))
      if s = "linear" ∨ s = "none" then .elinear
      else
        match matchPowerTok s with
        | some (d, vOpt) =>
          let n := if d = 0 then 2 else d
          let v : PowVariant :=
            match vOpt with
            | none => .pout
            | some vs => if vs = "in" then .pin else if vs = "inout" then .pinOut else .pout
          .epower n v
        | none => .elinear

/-! ### Colour parsing and serialization -/

def clamp01 (x : ℚ) : ℚ := max 0 (min 1 x)

/-- clampInt(v) = Math.round(Math.max(0, Math.min(255, Math.round(v)))). -/
def clampIntZ (v : ℚ) : ℤ := jsRound (max 0 (min 255 ((jsRound v : ℚ))))

def clampIntQ (v : ℚ) : ℚ := (clampIntZ v : ℚ)

structure RGBA where
  r : ℚ
  g : ℚ
  b : ℚ
  a : ℚ
deriving DecidableEq

inductive ColorInput
  | cstr (s : String)
  | carr (l : List ℚ)

def hexDigitVal (c : Char) : Option ℕ :=
  if c.isDigit then some (c.toNat - 48)
  else if 'a' ≤ c ∧ c ≤ 'f' then some (c.toNat - 87)
  else if 'A' ≤ c ∧ c ≤ 'F' then some (c.toNat - 55)
  else none

def hexPair (a b : Char) : Option ℕ :=
  match hexDigitVal a, hexDigitVal b with
  | some x, some y => some (16 * x + y)
  | _, _ => none

/-- `String(str).replace('#','')` removes the first '#' occurrence. -/
def removeFirstHash : List Char → List Char
  | [] => []
  | '#' :: t => t
  | c :: t => c :: removeFirstHash t

def parseHexColor (str : String) : Option RGBA :=
  let l := trimL (removeFirstHash str.data)
  match l with
  | [c1, c2, c3] =>
    match hexPair c1 c1, hexPair c2 c2, hexPair c3 c3 with
    | some r, some g, some b => some ⟨r, g, b, 1⟩
    | _, _, _ => none
  | [a1, a2, b1, b2, c1, c2] =>
    match hexPair a1 a2, hexPair b1 b2, hexPair c1 c2 with
    | some r, some g, some b => some ⟨r, g, b, 1⟩
    | _, _, _ => none
  | [a1, a2, b1, b2, c1, c2, d1, d2] =>
    match hexPair a1 a2, hexPair b1 b2, hexPair c1 c2, hexPair d1 d2 with
    | some r, some g, some b, some a => some ⟨r, g, b, (a : ℚ) / 255⟩
    | _, _, _, _ => none
  | _ => none

def endsPercent (s : String) : Bool := s.data.getLast? = some '%'

def dropLastStr (s : String) : String := String.mk s.data.dropLast

/-- per-channel parser inside the rgb()/rgba() branch. -/
def parseChannel (ch : String) : ℚ :=
  if endsPercent ch then
    match parseFloatQ (dropLastStr ch) with
    | none => 0
    | some p => clampIntQ ((p / 100) * 255)
  else
    match parseFloatQ ch with
    | none => 0
    | some n => clampIntQ n

/-- alpha parser inside the rgb()/rgba() branch. -/
def parseAlphaFn (astr : String) : ℚ :=
  if endsPercent astr then
    match parseFloatQ (dropLastStr astr) with
    | none => 1
    | some p => clamp01 (p / 100)
  else
    match parseFloatQ astr with
    | none => 1
    | some n => clamp01 n

/-- the `^rgba?\(\s*([^\)]+)\s*\)$` extraction (case-insensitive). -/
def rgbFnInner (s : String) : Option String :=
  let ls := lowerL s.data
  let rest? : Option (List Char) :=
    if leadMatch "rgba(".data ls then some (s.data.drop 5)
    else if leadMatch "rgb(".data ls then some (s.data.drop 4)
    else none
  match rest? with
  | none => none
  | some body =>
    match body.getLast? with
    | some ')' =>
      let inner := body.dropLast
      if inner.all (fun c => c ≠ ')') && trimL inner ≠ [] then some (String.mk (trimL inner))
      else none
    | _ => none

def looseAlpha (astr : String) : ℚ :=
  if endsPercent astr then
    match parseFloatQ (dropLastStr astr) with
    | none => 0
    | some p => clamp01 (p / 100)
  else
    match parseFloatQ astr with
    | none => 1
    | some n => clamp01 n

/-- the loose "r,g,b[,a]" fallback parse. -/
def looseColor (s : String) : Option RGBA :=
  let parts := splitParts s
  if parts.length = 3 ∨ parts.length = 4 then
    let r := clampIntQ ((parseFloatQ (parts.getD 0 "")).getD 0)
    let g := clampIntQ ((parseFloatQ (parts.getD 1 "")).getD 0)
    let b := clampIntQ ((parseFloatQ (parts.getD 2 "")).getD 0)
    let a := if parts.length = 4 then looseAlpha (parts.getD 3 "") else 1
    some ⟨r, g, b, a⟩
  else none

/-- parseColor on strings and arrays (the input shapes the claims
exercise; component-object inputs are outside the model's input type). -/
def parseColor (input : ColorInput) : Option RGBA :=
  match input with
  | .carr l =>
    let r := l.getD 0 0
    let g := l.getD 1 0
    let b := l.getD 2 0
    let a := if 3 < l.length then l.getD 3 1 else 1
    some ⟨clampIntQ r, clampIntQ g, clampIntQ b, clamp01 a⟩
  | .cstr s0 =>
    let s := strTrim s0
    if s = "transparent" then some ⟨0, 0, 0, 0⟩
    else if leadMatch ['#'] s.data then parseHexColor s
    else
      let fnRes : Option RGBA :=
        match rgbFnInner s with
        | some inner =>
          let parts := splitParts inner
          if 3 ≤ parts.length then
            let a := if 4 ≤ parts.length then parseAlphaFn (parts.getD 3 "") else 1
            some ⟨parseChannel (parts.getD 0 ""), parseChannel (parts.getD 1 ""),
                  parseChannel (parts.getD 2 ""), a⟩
          else none
        | none => none
      match fnRes with
      | some c => some c
      | none => looseColor s

/-- `(+a.toFixed(3))` rendered back to a string: round to three
decimals, drop trailing zeros. -/
def fixed3Str (a : ℚ) : String :=
  let n := jsRound (a * 1000)
  let sgn := if n < 0 then "-" else ""
  let m := n.natAbs
  let ip := m / 1000
  let fr := m % 1000
  if fr = 0 then sgn ++ natStr ip
  else
    let d1 := fr / 100
    let d2 := fr / 10 % 10
    let d3 := fr % 10
    let ds :=
      if d3 ≠ 0 then [digitChar d1, digitChar d2, digitChar d3]
      else if d2 ≠ 0 then [digitChar d1, digitChar d2]
      else [digitChar d1]
    sgn ++ natStr ip ++ "." ++ String.mk ds

def colorToString (c : RGBA) : String :=
  if 999/1000 ≤ c.a then
    "rgb(" ++ intStr (clampIntZ c.r) ++ ", " ++ intStr (clampIntZ c.g) ++ ", " ++
      intStr (clampIntZ c.b) ++ ")"
  else
    "rgba(" ++ intStr (clampIntZ c.r) ++ ", " ++ intStr (clampIntZ c.g) ++ ", " ++
      intStr (clampIntZ c.b) ++ ", " ++ fixed3Str c.a ++ ")"

/-! ### Unit conversion and relative end-value resolution -/

/-- the target geometry `convertUnit` consults: parent content width
(none when there is no parent element) and computed font size. -/
structure ElGeom where
  parentClientWidth : Option ℚ
  fontSize : ℚ

def convertUnit (val : ℚ) (unit : String) (el : ElGeom) (reference : ℚ) : ℚ :=
  if unit = "" ∨ unit = "px" then val
  else if unit = "%" then
    match el.parentClientWidth with
    | some w => (val / 100) * (if w = 0 then reference else w)
    | none => (val / 100) * reference
  else if unit = "em" then val * el.fontSize
  else val

inductive NumOrStr
  | num (q : ℚ)
  | str (s : String)

inductive EndVal
  | num (q : ℚ)
  | str (s : String)
deriving DecidableEq

structure RelResult where
  endv : EndVal
  unit : Option String
deriving DecidableEq

def numDotChar (c : Char) : Bool := c.isDigit || c = '.'

def unitChar (c : Char) : Bool := c.isAlpha || c = '%'

/-- the `(-?[\d.]+)([a-z%]*)$` tail shared by the relative and absolute
patterns of parseRelative. -/
def matchNumUnit (l : List Char) : Option (ℚ × String) :=
  let body : Bool × List Char :=
    match l with
    | '-' :: t => (true, t)
    | _ => (false, l)
  let nd := body.2.takeWhile numDotChar
  let rest := body.2.dropWhile numDotChar
  if nd.isEmpty then none
  else if rest.all unitChar then
    match parseFloatQ (String.mk ((if body.1 then ['-'] else []) ++ nd)) with
    | some q => some (q, String.mk rest)
    | none => none
  else none

def matchRelFull (s : String) : Option (ℚ × ℚ × String) :=
  match s.data with
  | '+' :: '=' :: rest => (matchNumUnit rest).map (fun p => (1, p.1, p.2))
  | '-' :: '=' :: rest => (matchNumUnit rest).map (fun p => (-1, p.1, p.2))
  | _ => none

def knownUnit (u : String) : Prop := u = "%" ∨ u = "em" ∨ u = "px" ∨ u = ""

instance : DecidablePred knownUnit := fun u => by unfold knownUnit; infer_instance

/-- parseRelative(start, expr, el): resolves an absolute or relative
end-value expression once, against the start value, into a fixed
absolute end value. -/
def parseRelative (start : ℚ) (expr : NumOrStr) (el : ElGeom) : RelResult :=
  match expr with
  | .num q => ⟨.num q, none⟩
  | .str s0 =>
    let sRaw := strTrim s0
    if sRaw = "" then ⟨.str "", none⟩
    else
      match matchRelFull sRaw with
      | some (sign, num, unit) =>
        if knownUnit unit then
          ⟨.num (start + sign * convertUnit num (if unit = "" then "px" else unit) el start),
            some "px"⟩
        else ⟨.num (start + sign * num), if unit = "" then none else some unit⟩
      | none =>
        match matchNumUnit sRaw.data with
        | some (num, unit) =>
          if knownUnit unit then
            ⟨.num (convertUnit num (if unit = "" then "px" else unit) el start), some "px"⟩
          else ⟨.num num, if unit = "" then none else some unit⟩
        | none => ⟨.str sRaw, none⟩

/-! ### Per-channel rendering and Tween.seek -/

/-- one prepared numeric channel: start and resolved end value. -/
structure NumEntry where
  start : ℚ
  endv : ℚ
deriving DecidableEq

/-- `_prepare` pushes a numeric entry exactly when the resolved end is
a number. -/
def prepareNumEntry (start : ℚ) (expr : NumOrStr) (el : ElGeom) : Option NumEntry :=
  match (parseRelative start expr el).endv with
  | .num e => some ⟨start, e⟩
  | .str _ => none

/-- `_renderTarget` numeric channel: val = start + (end - start) * progress. -/
def renderNumVal (start endv eased : ℚ) : ℚ := start + (endv - start) * eased

def renderNumEntry (e : NumEntry) (eased : ℚ) : ℚ := renderNumVal e.start e.endv eased

/-- a channel rendered through the tick path at (already clamped)
progress p: the eased value is interpolated. -/
def renderChannelAt (start endv : ℚ) (c : EaseChoice) (p : ℚ) : ℚ :=
  renderNumVal start endv (easeFn c p)

/-- full tick-path value at raw progress p (the tick clamps before
easing). -/
def tickRenderVal (start endv : ℚ) (c : EaseChoice) (p : ℚ) : ℚ :=
  renderNumVal start endv (easeFn c (clamp p 0 1))

/-- `Tween.seek(progress)` renders each entry at clamp(progress,0,1)
with no easing applied. -/
def tweenSeekVal (e : NumEntry) (p : ℚ) : ℚ := renderNumEntry e (clamp p 0 1)

/-- `seek` fires onComplete whenever the clamped progress reaches 1
and the callback exists (no once-guard). -/
def tweenSeekFires (hasOnComplete : Bool) (p : ℚ) : Bool :=
  decide (1 ≤ clamp p 0 1) && hasOnComplete

def seekFireCount (hasOnComplete : Bool) (ps : List ℚ) : ℕ :=
  (ps.filter (fun p => tweenSeekFires hasOnComplete p)).length

/-! ### Parent perspective reference counting -/

/-- state held on a parent element: the auto-perspective count
(deleted modelled as 0), the saved previous perspective (deleted
modelled as ""), and style.perspective. -/
structure PerspState where
  count : ℤ
  prev : String
  persp : String
deriving DecidableEq

/-- ensureParentPerspectiveOnAdd: save the pre-existing value and
install the default only when the count is (falsy) zero, then
increment. -/
def ensureParentPerspectiveOnAdd (px : String) (s : PerspState) : PerspState :=
  if s.count = 0 then
    { count := s.count + 1, prev := s.persp, persp := if s.persp = "" then px else s.persp }
  else { s with count := s.count + 1 }

/-- releaseParentPerspectiveOnRemove: count = max(0, (count||1)-1);
restore and delete the bookkeeping only when it reaches 0. -/
def releaseParentPerspectiveOnRemove (s : PerspState) : PerspState :=
  if max 0 ((if s.count = 0 then 1 else s.count) - 1) = 0 then
    { count := 0, prev := "", persp := s.prev }
  else { s with count := max 0 ((if s.count = 0 then 1 else s.count) - 1) }

/-! ### TweenManager and the Tween constructor -/

def managerAdd (m : List ℕ) (id : ℕ) : List ℕ := m ++ [id]

/-- the shared frame loop requests the next frame only while the
registry is non-empty. -/
def managerLoopAlive (m : List ℕ) : Bool := !m.isEmpty

structure TweenInit where
  numTargets : ℕ
  duration : ℚ
  paused : Bool
  hasOnCompleteAll : Bool
  immediateRender : Bool

/-- observable outcome of running the Tween constructor: the manager
registry afterwards, the running flag, the (target, progress) renders
performed, whether onCompleteAll fired, and whether
_restoreAutoParentPerspectives ran. -/
structure CtorOutcome where
  registry : List ℕ
  running : Bool
  renders : List (ℕ × ℚ)
  firedCompleteAll : Bool
  perspectivesReleased : Bool

/-- immediateRender renders every target at progress 0 right after
registration. -/
def ctorInitialRenders (cfg : TweenInit) : List (ℕ × ℚ) :=
  if cfg.immediateRender then (List.range cfg.numTargets).map (fun i => (i, (0 : ℚ))) else []

/-- the Tween constructor: duration is clamped to max(0,·); the tween
is added to the manager unconditionally before the duration-0 branch;
with duration 0 it renders progress 1 for every target, fires
onCompleteAll, releases perspectives and never plays (and is never
removed from the manager); otherwise it plays unless paused. -/
def tweenConstruct (m : List ℕ) (id : ℕ) (cfg : TweenInit) : CtorOutcome :=
  if max 0 cfg.duration = 0 then
    { registry := managerAdd m id, running := false,
      renders := ctorInitialRenders cfg ++ (List.range cfg.numTargets).map (fun i => (i, (1 : ℚ))),
      firedCompleteAll := cfg.hasOnCompleteAll,
      perspectivesReleased := true }
  else
    { registry := managerAdd m id, running := !cfg.paused, renders := ctorInitialRenders cfg,
      firedCompleteAll := false, perspectivesReleased := false }

/-! ### Tween._tick cycle arithmetic -/

structure TickCfg where
  duration : ℚ
  repeatDelay : ℚ
  repeatCount : Option ℕ
  yoyo : Bool

/-- `(duration + repeatDelay) || duration || 0.000001`. -/
def cycleTime (c : TickCfg) : ℚ :=
  if c.duration + c.repeatDelay ≠ 0 then c.duration + c.repeatDelay
  else if c.duration ≠ 0 then c.duration
  else 1/1000000

/-- cycle = floor(max(0, tRaw / cycleTime)). -/
def tickCycle (c : TickCfg) (tRaw : ℚ) : ℤ := Int.floor (max 0 (tRaw / cycleTime c))

/-- localT = (tRaw - cycle*cycleTime) / max(0.000001, duration). -/
def tickLocalT (c : TickCfg) (tRaw : ℚ) : ℚ :=
  (tRaw - (tickCycle c tRaw : ℚ) * cycleTime c) / max (1/1000000) c.duration

/-- the repeat clamp: finite positive repeat with cycle beyond it
forces (repeat, 1). -/
def tickCyclePair (c : TickCfg) (tRaw : ℚ) : ℤ × ℚ :=
  match c.repeatCount with
  | none => (tickCycle c tRaw, tickLocalT c tRaw)
  | some r =>
    if 0 < r ∧ (r : ℤ) < tickCycle c tRaw then ((r : ℤ), 1)
    else (tickCycle c tRaw, tickLocalT c tRaw)

/-- progress = clamp(yoyo-on-odd-cycle reversal of localT, 0, 1). -/
def tickProgress (c : TickCfg) (tRaw : ℚ) : ℚ :=
  clamp
    (if c.yoyo && decide ((tickCyclePair c tRaw).1 % 2 = 1) then
      1 - (tickCyclePair c tRaw).2
     else (tickCyclePair c tRaw).2) 0 1

/-- one target's completion condition inside the allDone check:
infinite repeat is never done. -/
def itemDone (c : TickCfg) (stag elapsed : ℚ) : Bool :=
  match c.repeatCount with
  | none => false
  | some r => decide (stag + cycleTime c * ((r : ℚ) + 1) ≤ elapsed)

/-- `every(...)` over the per-target items. -/
def allTargetsDone (c : TickCfg) (stags : List ℚ) (elapsed : ℚ) : Bool :=
  stags.all (fun s => itemDone c s elapsed)

def tickSelfUnregisters (c : TickCfg) (stags : List ℚ) (elapsed : ℚ) : Bool :=
  allTargetsDone c stags elapsed

def tickFiresCompleteAll (c : TickCfg) (stags : List ℚ) (elapsed : ℚ) (hasCb : Bool) : Bool :=
  allTargetsDone c stags elapsed && hasCb

/-! ### Timeline -/

structure TLItem where
  position : ℚ
  dur : ℚ
deriving DecidableEq

structure TL where
  items : List TLItem
  duration : ℚ
  labels : List (String × ℚ)
  paused : Bool
  playing : Bool
  poisoned : Bool

inductive PosArg
  | num (q : ℚ)
  | str (s : String)

def lookupLabel (ls : List (String × ℚ)) (n : String) : Option ℚ :=
  (ls.find? (fun p => p.1 = n)).map Prod.snd

/-- the `(-?[\d.]+)(s|ms)?$` tail of the relative-position pattern,
yielding seconds. -/
def matchRelTime (l : List Char) : Option ℚ :=
  let body : Bool × List Char :=
    match l with
    | '-' :: t => (true, t)
    | _ => (false, l)
  let nd := body.2.takeWhile numDotChar
  let rest := body.2.dropWhile numDotChar
  if nd.isEmpty then none
  else
    match parseFloatQ (String.mk ((if body.1 then ['-'] else []) ++ nd)) with
    | none => none
    | some v =>
      match rest with
      | [] => some v
      | ['s'] => some v
      | ['m', 's'] => some (v / 1000)
      | _ => none

/-- Timeline._parsePosition; the Bool is false exactly on the one path
where the JS produces NaN (malformed relative fallback). -/
def parsePositionTL (tl : TL) (p : PosArg) : ℚ × Bool :=
  match p with
  | .num q => (q, true)
  | .str s0 =>
    if s0 = "" then (tl.duration, true)
    else
      let s := strTrim s0
      let isRel : Option ℚ :=
        match s.data with
        | '+' :: '=' :: _ => some 1
        | '-' :: '=' :: _ => some (-1)
        | _ => none
      match isRel with
      | some sign =>
        match matchRelTime (s.data.drop 2) with
        | some secs => (tl.duration + sign * secs, true)
        | none =>
          match parseFloatQ (String.mk (s.data.drop 2)) with
          | some v => (tl.duration + sign * v, true)
          | none => (tl.duration, false)
      | none =>
        match lookupLabel tl.labels s with
        | some q => (q, true)
        | none =>
          match parseFloatQ s with
          | some n => (n, true)
          | none => (tl.duration, true)

/-- default-or-parsed position for to/add/addLabel. -/
def tlResolvePos (tl : TL) (pos? : Option PosArg) : ℚ × Bool :=
  match pos? with
  | none => (tl.duration, true)
  | some pa => parsePositionTL tl pa

/-- structural part of Timeline.to: the stored Tween clamps its
duration to max(0,·) but totalDuration is extended with the raw
duration argument. -/
def tlToCore (tl : TL) (dur : ℚ) (pos? : Option PosArg) : TL :=
  { tl with
    items := tl.items ++ [⟨(tlResolvePos tl pos?).1, max 0 dur⟩],
    duration := max tl.duration ((tlResolvePos tl pos?).1 + dur),
    poisoned := tl.poisoned || !(tlResolvePos tl pos?).2 }

/-- Timeline.to also auto-plays when neither paused nor playing. -/
def tlTo (tl : TL) (dur : ℚ) (pos? : Option PosArg) : TL :=
  if !(tlToCore tl dur pos?).paused && !(tlToCore tl dur pos?).playing then
    { tlToCore tl dur pos? with playing := true }
  else tlToCore tl dur pos?

/-- Timeline.add of a pre-built playable whose duration is read at
insertion time. -/
def tlAdd (tl : TL) (playableDur : ℚ) (pos? : Option PosArg) : TL :=
  { tl with
    items := tl.items ++ [⟨(tlResolvePos tl pos?).1, playableDur⟩],
    duration := max tl.duration ((tlResolvePos tl pos?).1 + playableDur),
    poisoned := tl.poisoned || !(tlResolvePos tl pos?).2 }

def tlAddLabel (tl : TL) (name : String) (pos? : Option PosArg) : TL :=
  { tl with
    labels := (name, (tlResolvePos tl pos?).1) :: tl.labels,
    poisoned := tl.poisoned || !(tlResolvePos tl pos?).2 }

def tlPlay (tl : TL) : TL := if tl.playing then tl else { tl with playing := true }

def tlPause (tl : TL) : TL := { tl with playing := false }

inductive TLOp
  | to (dur : ℚ) (pos : Option PosArg)
  | add (pdur : ℚ) (pos : Option PosArg)
  | addLabel (name : String) (pos : Option PosArg)
  | play
  | pause
  | seek (t : ℚ)

def applyOp (tl : TL) : TLOp → TL
  | .to d p => tlTo tl d p
  | .add d p => tlAdd tl d p
  | .addLabel n p => tlAddLabel tl n p
  | .play => tlPlay tl
  | .pause => tlPause tl
  | .seek _ => tl

def applyOps (tl : TL) (ops : List TLOp) : TL := ops.foldl applyOp tl

def tlInit (paused : Bool) : TL := ⟨[], 0, [], paused, false, false⟩

/-- the durations handed to `to` are non-negative. -/
def opDurOk : TLOp → Prop
  | .to d _ => 0 ≤ d
  | _ => True

instance : DecidablePred opDurOk := fun op => by cases op <;> unfold opDurOk <;> infer_instance

/-- Timeline.seek(time): clamp to [0,totalDuration] and drive every
item at clamp((t - position)/max(1e-6, duration), 0, 1). -/
def tlSeekLocalTs (tl : TL) (time : ℚ) : List ℚ :=
  tl.items.map (fun it => clamp ((clamp time 0 tl.duration - it.position) / max (1/1000000) it.dur) 0 1)

/-! ### Scroll trigger factories -/

structure DomArg where
  hasGetBoundingClientRect : Bool

/-- isElement(el) = !!el && typeof el.getBoundingClientRect === 'function'. -/
def isElement : Option DomArg → Bool
  | none => false
  | some o => o.hasGetBoundingClientRect

structure TimelineArg where
  hasSeekFn : Bool

/-- `!timeline || typeof timeline.seek !== 'function'` negated. -/
def timelineHasSeek : Option TimelineArg → Bool
  | none => false
  | some t => t.hasSeekFn

def createEnterTrigger (trigger : Option DomArg) : Except String Unit :=
  if !isElement trigger then .error "createEnterTrigger: trigger must be element"
  else .ok ()

def createScrubTrigger (trigger : Option DomArg) (timeline : Option TimelineArg) :
    Except String Unit :=
  if !isElement trigger then .error "createScrubTrigger: trigger must be element"
  else if !timelineHasSeek timeline then
    .error "createScrubTrigger: timeline must be an Animix timeline"
  else .ok ()

def createSmoothScrub (trigger : Option DomArg) (timeline : Option TimelineArg) :
    Except String Unit :=
  if !isElement trigger then .error "createSmoothScrub: trigger must be element"
  else if !timelineHasSeek timeline then
    .error "createSmoothScrub: timeline must be an Animix timeline"
  else .ok ()

/-! ### Named configurations used by the claims -/

/-- repeat = 1, yoyo = true, no repeat delay. -/
def yoyoCfg (d : ℚ) : TickCfg := ⟨d, 0, some 1, true⟩

/-- repeat = Infinity. -/
def infCfg (d : ℚ) : TickCfg := ⟨d, 0, none, false⟩

/-- the two-tween timeline of the composition example: durations 1 at
positions 0 and 0.5. -/
def c5Timeline : TL :=
  applyOps (tlInit true) [.to 1 (some (.num 0)), .to 1 (some (.num (1/2)))]

def exceptOk : Except String Unit → Bool
  | .ok _ => true
  | .error _ => false

/-- one increment with the default 600px perspective. -/
def perspE (s : PerspState) : PerspState := ensureParentPerspectiveOnAdd "600px" s

/-- one decrement. -/
def perspR (s : PerspState) : PerspState := releaseParentPerspectiveOnRemove s

/-- a parent with no pre-existing explicit perspective. -/
def c2Start : PerspState := ⟨0, "", ""⟩

/-- a parent whose style already carries an explicit perspective. -/
def c2StartPre : PerspState := ⟨0, "", "450px"⟩

/-- one-target duration-0 tween with an onCompleteAll callback. -/
def c1Cfg : TweenInit := ⟨1, 0, false, true, false⟩

/-- two-target duration-0 paused tween with immediateRender. -/
def c1WCfg : TweenInit := ⟨2, 0, true, true, true⟩

/-- `to` with a negative duration at position 2. -/
def c3BadOps : List TLOp := [.to (-5) (some (.num 2))]

/-- a mixed well-formed operation sequence. -/
def c3WitnessOps : List TLOp :=
  [.to 1 (some (.num 0)), .add 2 none, .addLabel "mid" none,
   .to (1/2) (some (.str "mid")), .play, .pause, .seek (1/2)]

/-! ## Helper lemmas -/

attribute [local semireducible] Rat.add Rat.mul Rat.sub Rat.inv

theorem powersIdx_ne_zero (n : ℕ) : powersIdx n ≠ 0 := by
  unfold powersIdx
  split
  · rename_i h
    rcases h with h | h | h | h <;> omega
  · omega

theorem easeFn_zero (c : EaseChoice) : easeFn c 0 = 0 := by
  cases c with
  | elinear => rfl
  | epower n v =>
    have hn : powersIdx n ≠ 0 := powersIdx_ne_zero n
    cases v with
    | pin => simp [easeFn, powIn, zero_pow hn]
    | pout => simp [easeFn, powOut]
    | pinOut =>
      simp only [easeFn, powInOut]
      rw [if_pos (by norm_num)]
      rw [show ((0 : ℚ) * 2) = 0 by ring, zero_pow hn]
      ring

theorem easeFn_one (c : EaseChoice) : easeFn c 1 = 1 := by
  cases c with
  | elinear => rfl
  | epower n v =>
    have hn : powersIdx n ≠ 0 := powersIdx_ne_zero n
    cases v with
    | pin => simp [easeFn, powIn]
    | pout => simp [easeFn, powOut, zero_pow hn]
    | pinOut =>
      simp only [easeFn, powInOut]
      rw [if_neg (by norm_num)]
      rw [show (((1 : ℚ) - 1) * 2) = 0 by ring, zero_pow hn]
      ring

theorem clamp_eq_self (x : ℚ) (h0 : 0 ≤ x) (h1 : x ≤ 1) : clamp x 0 1 = x := by
  unfold clamp
  rw [min_eq_right h1, max_eq_right h0]

theorem one_le_clamp_iff (p : ℚ) : 1 ≤ clamp p 0 1 ↔ 1 ≤ p := by
  unfold clamp
  constructor
  · intro h
    rcases le_max_iff.mp h with h' | h'
    · norm_num at h'
    · exact (le_min_iff.mp h').2
  · intro h
    exact le_max_of_le_right (le_min le_rfl h)

/-! ## C4: numeric channel rendering and boundary exactness -/

/-- C4: for every numeric channel and any easing name resolved through
parseEase, the tick path writes start + (end - start) * ease(p) at
clamped progress p ∈ [0,1]; at p = 0 the written value equals start
exactly and at p = 1 it equals end exactly, for every member of the
provided easing family. -/
theorem c4_boundary_exactness (name : Option String) (start endv p : ℚ)
    (h0 : 0 ≤ p) (h1 : p ≤ 1) :
    renderChannelAt start endv (parseEase name) p
      = start + (endv - start) * easeFn (parseEase name) p ∧
    renderChannelAt start endv (parseEase name) 0 = start ∧
    renderChannelAt start endv (parseEase name) 1 = endv := by
  refine ⟨rfl, ?_, ?_⟩
  · unfold renderChannelAt renderNumVal
    rw [easeFn_zero]
    ring
  · unfold renderChannelAt renderNumVal
    rw [easeFn_one]
    ring

/-- C4 witness: the theorem instantiated at the power2.inOut easing,
start 3, end 7, progress 1/2. -/
theorem c4_boundary_exactness_witness :
    (0 : ℚ) ≤ 1/2 ∧ (1/2 : ℚ) ≤ 1 ∧
    (renderChannelAt 3 7 (parseEase (some "power2.inout")) (1/2)
        = 3 + (7 - 3) * easeFn (parseEase (some "power2.inout")) (1/2) ∧
      renderChannelAt 3 7 (parseEase (some "power2.inout")) 0 = 3 ∧
      renderChannelAt 3 7 (parseEase (some "power2.inout")) 1 = 7) :=
  ⟨by norm_num, by norm_num,
    c4_boundary_exactness (some "power2.inout") 3 7 (1/2) (by norm_num) (by norm_num)⟩

/-! ## C6: relative end-value expressions resolve once at preparation -/

/-- C6: with start 100 the expression "+=50" resolves to the fixed
absolute end 150; "-=20%" against a parent content width of 200px
resolves to 100 - 40 = 60; the prepared entry stores the resolved end
and every later render reads only that constant (never the original
expression), so the end value is never re-evaluated per frame. -/
theorem c6_relative_resolution :
    parseRelative 100 (.str "+=50") ⟨none, 16⟩ = ⟨.num 150, some "px"⟩ ∧
    parseRelative 100 (.str "-=20%") ⟨some 200, 16⟩ = ⟨.num 60, some "px"⟩ ∧
    prepareNumEntry 100 (.str "+=50") ⟨none, 16⟩ = some ⟨100, 150⟩ ∧
    (∀ p : ℚ, renderNumEntry ⟨100, 150⟩ p = 100 + (150 - 100) * p) :=
  ⟨by decide, by decide, by decide, fun _ => rfl⟩

/-! ## C9: trigger factories fail fast on configuration errors -/

/-- C9: each scroll-trigger factory validates its configuration at
call time and returns a raised error exactly when it is invalid:
createEnterTrigger rejects a non-element trigger; createScrubTrigger
and createSmoothScrub reject a non-element trigger or a timeline
without a seek capability; construction succeeds iff the configuration
is valid, so no error is deferred or swallowed. -/
theorem c9_trigger_validation :
    (∀ t : Option DomArg,
      createEnterTrigger t =
        if isElement t then .ok () else .error "createEnterTrigger: trigger must be element") ∧
    (∀ (t : Option DomArg) (tl : Option TimelineArg),
      createScrubTrigger t tl =
        if isElement t then
          (if timelineHasSeek tl then .ok ()
           else .error "createScrubTrigger: timeline must be an Animix timeline")
        else .error "createScrubTrigger: trigger must be element") ∧
    (∀ (t : Option DomArg) (tl : Option TimelineArg),
      createSmoothScrub t tl =
        if isElement t then
          (if timelineHasSeek tl then .ok ()
           else .error "createSmoothScrub: timeline must be an Animix timeline")
        else .error "createSmoothScrub: trigger must be element") ∧
    (∀ t : Option DomArg, exceptOk (createEnterTrigger t) = isElement t) ∧
    (∀ (t : Option DomArg) (tl : Option TimelineArg),
      exceptOk (createScrubTrigger t tl) = (isElement t && timelineHasSeek tl)) ∧
    (∀ (t : Option DomArg) (tl : Option TimelineArg),
      exceptOk (createSmoothScrub t tl) = (isElement t && timelineHasSeek tl)) := by
  refine ⟨?_, ?_, ?_, ?_, ?_, ?_⟩
  · intro t
    cases h : isElement t <;> simp [createEnterTrigger, h]
  · intro t tl
    cases h : isElement t <;> cases h2 : timelineHasSeek tl <;>
      simp [createScrubTrigger, h, h2]
  · intro t tl
    cases h : isElement t <;> cases h2 : timelineHasSeek tl <;>
      simp [createSmoothScrub, h, h2]
  · intro t
    cases h : isElement t <;> simp [createEnterTrigger, h, exceptOk]
  · intro t tl
    cases h : isElement t <;> cases h2 : timelineHasSeek tl <;>
      simp [createScrubTrigger, h, h2, exceptOk]
  · intro t tl
    cases h : isElement t <;> cases h2 : timelineHasSeek tl <;>
      simp [createSmoothScrub, h, h2, exceptOk]

/-! ## C10: Tween.seek renders raw clamped progress without easing -/

/-- C10: Tween.seek(p) writes start + (end - start) * clamp(p,0,1) for
every numeric channel — the configured easing is not applied (the tick
path, by contrast, eases before interpolating: at p = 1/2 seek writes
1/2 while a power2.out tick writes 3/4) — and the onComplete callback
fires on every invocation whose clamped progress reaches 1, with no
once-only guard. -/
theorem c10_seek_unEased :
    (∀ (e : NumEntry) (p : ℚ),
      tweenSeekVal e p = e.start + (e.endv - e.start) * clamp p 0 1) ∧
    (∀ (b : Bool) (p : ℚ), tweenSeekFires b p = (decide (1 ≤ p) && b)) ∧
    tweenSeekVal ⟨0, 1⟩ (1/2) = 1/2 ∧
    tickRenderVal 0 1 (.epower 2 .pout) (1/2) = 3/4 ∧
    seekFireCount true [2, 2, 2] = 3 := by
  refine ⟨fun e p => rfl, ?_, by decide, by decide, by decide⟩
  intro b p
  unfold tweenSeekFires
  congr 1
  rw [decide_eq_decide]
  exact one_le_clamp_iff p

/-! ## C1: duration-0 tweens -/

/-- C1 counterexample: a duration-0 tween built into an empty manager
is retained in the Scheduler's registry (the constructor adds it and
the duration-0 branch never removes it), and that retention keeps the
frame loop alive — contradicting the claim that no recurring tick is
ever registered. -/
theorem c1_counterexample :
    (tweenConstruct [] 1 c1Cfg).registry = [1] ∧
    managerLoopAlive (tweenConstruct [] 1 c1Cfg).registry = true := by decide

/-- C1 (amended): for every Tween constructed with duration 0 the
final state (progress 1) is rendered immediately for every target, the
onCompleteAll completion callback fires, perspective side effects are
released, and the tween never starts running (its running flag is
false so no tick body ever executes); however the constructor still
registers it with the Scheduler — the registry retains the tween and
the frame loop is kept alive by it. -/
theorem c1_zero_duration (m : List ℕ) (id : ℕ) (cfg : TweenInit) (h : cfg.duration = 0) :
    (tweenConstruct m id cfg).running = false ∧
    (tweenConstruct m id cfg).firedCompleteAll = cfg.hasOnCompleteAll ∧
    (tweenConstruct m id cfg).perspectivesReleased = true ∧
    (∀ i, i < cfg.numTargets → (i, (1 : ℚ)) ∈ (tweenConstruct m id cfg).renders) ∧
    (tweenConstruct m id cfg).registry = m ++ [id] := by
  have h0 : max 0 cfg.duration = 0 := by rw [h, max_self]
  have hc : tweenConstruct m id cfg =
      { registry := managerAdd m id, running := false,
        renders := ctorInitialRenders cfg ++
          (List.range cfg.numTargets).map (fun i => (i, (1 : ℚ))),
        firedCompleteAll := cfg.hasOnCompleteAll, perspectivesReleased := true } := by
    unfold tweenConstruct
    rw [if_pos h0]
  rw [hc]
  refine ⟨rfl, rfl, rfl, ?_, rfl⟩
  intro i hi
  exact List.mem_append_right _ (List.mem_map.mpr ⟨i, List.mem_range.mpr hi, rfl⟩)

/-- C1 witness: the amended theorem at a concrete two-target paused
duration-0 configuration inserted into a non-empty manager. -/
theorem c1_zero_duration_witness :
    c1WCfg.duration = 0 ∧
    ((tweenConstruct [5, 7] 9 c1WCfg).running = false ∧
      (tweenConstruct [5, 7] 9 c1WCfg).firedCompleteAll = c1WCfg.hasOnCompleteAll ∧
      (tweenConstruct [5, 7] 9 c1WCfg).perspectivesReleased = true ∧
      (∀ i, i < c1WCfg.numTargets → (i, (1 : ℚ)) ∈ (tweenConstruct [5, 7] 9 c1WCfg).renders) ∧
      (tweenConstruct [5, 7] 9 c1WCfg).registry = [5, 7] ++ [9]) :=
  ⟨rfl, c1_zero_duration [5, 7] 9 c1WCfg rfl⟩

/-! ## C2: perspective reference counting on a shared parent -/

/-- C2: the per-parent perspective reference count increments by
exactly one on every add and never goes negative on a remove; the
pre-existing perspective value is saved (and the default installed)
only on the 0→1 transition — a non-zero count leaves both the saved
value and the live perspective untouched; a remove from count ≥ 2 only
decrements, restoring nothing, while a remove from count 1 restores
the saved value; concretely, three tweens sharing one parent install
the 600px default once, keep it through the first two releases, and
restore the parent's original (empty or explicit 450px) perspective
only after the third release. -/
theorem c2_perspective_refcount :
    (∀ s : PerspState, 0 ≤ s.count →
      (perspE s).count = s.count + 1 ∧ 0 ≤ (perspR s).count) ∧
    (∀ s : PerspState, s.count ≠ 0 →
      (perspE s).prev = s.prev ∧ (perspE s).persp = s.persp) ∧
    (∀ s : PerspState, 2 ≤ s.count →
      (perspR s).count = s.count - 1 ∧ (perspR s).prev = s.prev ∧
      (perspR s).persp = s.persp) ∧
    (∀ s : PerspState, s.count = 1 →
      (perspR s).count = 0 ∧ (perspR s).persp = s.prev) ∧
    ((perspE (perspE (perspE c2Start))).count = 3 ∧
      (perspE (perspE (perspE c2Start))).persp = "600px" ∧
      (perspR (perspE (perspE (perspE c2Start)))).persp = "600px" ∧
      (perspR (perspR (perspE (perspE (perspE c2Start))))).persp = "600px" ∧
      (perspR (perspR (perspR (perspE (perspE (perspE c2Start)))))).persp = "" ∧
      (perspR (perspR (perspR (perspE (perspE (perspE c2Start)))))).count = 0 ∧
      (perspE (perspE (perspE c2StartPre))).persp = "450px" ∧
      (perspE (perspE (perspE c2StartPre))).prev = "450px" ∧
      (perspR (perspR (perspE (perspE (perspE c2StartPre))))).persp = "450px" ∧
      (perspR (perspR (perspR (perspE (perspE (perspE c2StartPre)))))).persp = "450px") := by
  refine ⟨?_, ?_, ?_, ?_, by decide⟩
  · intro s _
    constructor
    · by_cases h : s.count = 0 <;> simp [perspE, ensureParentPerspectiveOnAdd, h]
    · unfold perspR releaseParentPerspectiveOnRemove
      by_cases h : max 0 ((if s.count = 0 then 1 else s.count) - 1) = 0
      · rw [if_pos h]
      · rw [if_neg h]
        exact le_max_left 0 _
  · intro s h
    simp [perspE, ensureParentPerspectiveOnAdd, if_neg h]
  · intro s hs
    have h0 : ¬ s.count = 0 := by omega
    simp only [perspR, releaseParentPerspectiveOnRemove, if_neg h0]
    have hm : max 0 (s.count - 1) = s.count - 1 := max_eq_right (by omega)
    rw [hm, if_neg (by omega : ¬(s.count - 1 = 0))]
    exact ⟨rfl, rfl, rfl⟩
  · intro s hs
    simp [perspR, releaseParentPerspectiveOnRemove, hs]

/-- C2 witness: the 1→0 restore conjunct at a parent whose saved
perspective is "prev0". -/
theorem c2_perspective_refcount_witness :
    (⟨1, "prev0", "600px"⟩ : PerspState).count = 1 ∧
    ((perspR ⟨1, "prev0", "600px"⟩).count = 0 ∧
      (perspR ⟨1, "prev0", "600px"⟩).persp = "prev0") :=
  ⟨rfl, c2_perspective_refcount.2.2.2.1 ⟨1, "prev0", "600px"⟩ rfl⟩

/-! ## C5: timeline composition example -/

/-- C5 counterexample: the two 1s tweens at positions 0 and 0.5 do
give total duration 1.5, but seek(0.75) does not produce local
progresses 1 and 0.5 as the claim states. -/
theorem c5_counterexample :
    c5Timeline.duration = 3/2 ∧ tlSeekLocalTs c5Timeline (3/4) ≠ [1, 1/2] := by decide

/-- C5 (amended): a Timeline with two 1s tweens at positions 0 and 0.5
has total duration 1.5s, and seek(0.75) drives the first tween to
local progress 0.75 and the second to 0.25 — each item's local
progress being clamp((time − position)/duration, 0, 1). -/
theorem c5_seek_local_progress :
    c5Timeline.duration = 3/2 ∧ tlSeekLocalTs c5Timeline (3/4) = [3/4, 1/4] := by decide

/-! ## C7: colour parse/serialize round-trip -/

/-- C7: for the representative inputs "#fff", "#112233",
"rgb(10,20,30)", "rgba(10,20,30,0.5)" and the array [10,20,30,0.5],
serializing the parsed colour and re-parsing yields the same canonical
RGBA; and colorToString emits rgb(...) exactly when alpha ≥ 0.999 and
rgba(...) with the alpha rounded to three decimals otherwise. -/
theorem c7_color_roundtrip :
    (parseColor (.cstr "#fff") = some ⟨255, 255, 255, 1⟩ ∧
      colorToString ⟨255, 255, 255, 1⟩ = "rgb(255, 255, 255)" ∧
      parseColor (.cstr "rgb(255, 255, 255)") = some ⟨255, 255, 255, 1⟩) ∧
    (parseColor (.cstr "#112233") = some ⟨17, 34, 51, 1⟩ ∧
      colorToString ⟨17, 34, 51, 1⟩ = "rgb(17, 34, 51)" ∧
      parseColor (.cstr "rgb(17, 34, 51)") = some ⟨17, 34, 51, 1⟩) ∧
    (parseColor (.cstr "rgb(10,20,30)") = some ⟨10, 20, 30, 1⟩ ∧
      colorToString ⟨10, 20, 30, 1⟩ = "rgb(10, 20, 30)" ∧
      parseColor (.cstr "rgb(10, 20, 30)") = some ⟨10, 20, 30, 1⟩) ∧
    (parseColor (.cstr "rgba(10,20,30,0.5)") = some ⟨10, 20, 30, 1/2⟩ ∧
      colorToString ⟨10, 20, 30, 1/2⟩ = "rgba(10, 20, 30, 0.5)" ∧
      parseColor (.cstr "rgba(10, 20, 30, 0.5)") = some ⟨10, 20, 30, 1/2⟩) ∧
    (parseColor (.carr [10, 20, 30, 1/2]) = some ⟨10, 20, 30, 1/2⟩ ∧
      colorToString ⟨10, 20, 30, 1/2⟩ = "rgba(10, 20, 30, 0.5)" ∧
      parseColor (.cstr "rgba(10, 20, 30, 0.5)") = some ⟨10, 20, 30, 1/2⟩) ∧
    (∀ c : RGBA, 999/1000 ≤ c.a →
      colorToString c =
        "rgb(" ++ intStr (clampIntZ c.r) ++ ", " ++ intStr (clampIntZ c.g) ++ ", " ++
          intStr (clampIntZ c.b) ++ ")") ∧
    (∀ c : RGBA, c.a < 999/1000 →
      colorToString c =
        "rgba(" ++ intStr (clampIntZ c.r) ++ ", " ++ intStr (clampIntZ c.g) ++ ", " ++
          intStr (clampIntZ c.b) ++ ", " ++ fixed3Str c.a ++ ")") := by
  refine ⟨by decide, by decide, by decide, by decide, by decide, ?_, ?_⟩
  · intro c h
    unfold colorToString
    rw [if_pos h]
  · intro c h
    unfold colorToString
    rw [if_neg (not_le.mpr h)]

/-- C7 witness: the rgba serialization rule at alpha 1/4. -/
theorem c7_color_roundtrip_witness :
    ((1/4 : ℚ) < 999/1000) ∧
    colorToString ⟨5, 6, 7, 1/4⟩ =
      "rgba(" ++ intStr (clampIntZ 5) ++ ", " ++ intStr (clampIntZ 6) ++ ", " ++
        intStr (clampIntZ 7) ++ ", " ++ fixed3Str (1/4) ++ ")" :=
  ⟨by norm_num, c7_color_roundtrip.2.2.2.2.2.2 ⟨5, 6, 7, 1/4⟩ (by norm_num)⟩

/-! ## C8 counterexample: empty-target tween with infinite repeat -/

/-- C8 counterexample: for a repeat = Infinity tween whose target list
is empty, the all-targets-done condition (an `every` over the
per-target items) is vacuously true on the very first tick, so the
tween self-unregisters and fires onCompleteAll — contradicting the
claim that with repeat = Infinity the condition is false on every
tick. -/
theorem c8_counterexample :
    tickSelfUnregisters (infCfg 1) [] 0 = true ∧
    tickFiresCompleteAll (infCfg 1) [] 0 true = true := by decide

/-! ## C3: totalDuration invariant machinery -/

theorem tlInvariant_step (tl : TL) (op : TLOp) (hop : opDurOk op)
    (h : ∀ it ∈ tl.items, it.position + it.dur ≤ tl.duration) :
    ∀ it ∈ (applyOp tl op).items, it.position + it.dur ≤ (applyOp tl op).duration := by
  cases op
  next d p =>
    have hi : (tlTo tl d p).items = (tlToCore tl d p).items := by
      unfold tlTo
      split <;> rfl
    have hd : (tlTo tl d p).duration = (tlToCore tl d p).duration := by
      unfold tlTo
      split <;> rfl
    intro it hit
    show it.position + it.dur ≤ (tlTo tl d p).duration
    rw [hd]
    rw [show applyOp tl (.to d p) = tlTo tl d p from rfl, hi] at hit
    simp only [tlToCore] at hit ⊢
    rcases List.mem_append.mp hit with hmem | hmem
    · exact le_trans (h it hmem) (le_max_left _ _)
    · rw [List.mem_singleton] at hmem
      subst hmem
      simp only
      rw [max_eq_right (hop : (0:ℚ) ≤ d)]
      exact le_max_right _ _
  next pd p =>
    intro it hit
    simp only [applyOp, tlAdd] at hit ⊢
    rcases List.mem_append.mp hit with hmem | hmem
    · exact le_trans (h it hmem) (le_max_left _ _)
    · rw [List.mem_singleton] at hmem
      subst hmem
      exact le_max_right _ _
  next n p =>
    intro it hit
    exact h it hit
  next =>
    intro it hit
    rw [show applyOp tl TLOp.play = tlPlay tl from rfl] at hit ⊢
    unfold tlPlay at hit ⊢
    revert hit
    split <;> intro hit <;> exact h it hit
  next =>
    intro it hit
    exact h it hit
  next t =>
    intro it hit
    exact h it hit

theorem tlInvariant_run (ops : List TLOp) : ∀ tl : TL, (∀ op ∈ ops, opDurOk op) →
    (∀ it ∈ tl.items, it.position + it.dur ≤ tl.duration) →
    ∀ it ∈ (applyOps tl ops).items, it.position + it.dur ≤ (applyOps tl ops).duration := by
  induction ops with
  | nil =>
    intro tl _ h
    exact h
  | cons op rest ih =>
    intro tl hops h
    have h1 := tlInvariant_step tl op (hops op (List.mem_cons_self op rest)) h
    exact ih (applyOp tl op) (fun o ho => hops o (List.mem_cons_of_mem op ho)) h1

/-- C3 counterexample: `to` with duration −5 at position 2 stores an
item with clamped Tween duration 0 at position 2 while totalDuration
stays max(0, 2 + (−5)) = 0, so totalDuration ≥ position + duration
fails for that item. -/
theorem c3_counterexample :
    ¬ ∀ it ∈ (applyOps (tlInit true) c3BadOps).items,
        it.position + it.dur ≤ (applyOps (tlInit true) c3BadOps).duration := by decide

/-- C3 (amended): for every sequence of to / add / addLabel / play /
pause / seek operations on a Timeline in which every duration handed
to `to` is non-negative, every position expression parses to a number
(the state is unpoisoned), and each playable's duration is the value
read at insertion time, totalDuration ≥ position + duration holds for
every item — including label and relative "+=n"/"-=n" positions. The
claim as stated fails because Timeline.to extends totalDuration with
the raw duration argument while the stored Tween clamps its duration
to max(0, d). -/
theorem c3_totalDuration_invariant (ops : List TLOp) (b : Bool)
    (hd : ∀ op ∈ ops, opDurOk op)
    (_hp : (applyOps (tlInit b) ops).poisoned = false) :
    ∀ it ∈ (applyOps (tlInit b) ops).items,
      it.position + it.dur ≤ (applyOps (tlInit b) ops).duration :=
  tlInvariant_run ops (tlInit b) hd
    (by intro it hit; exact absurd hit (List.not_mem_nil it))

/-- C3 witness: the amended invariant on a mixed concrete sequence of
to / add / addLabel / play / pause / seek operations. -/
theorem c3_totalDuration_invariant_witness :
    (∀ op ∈ c3WitnessOps, opDurOk op) ∧
    (applyOps (tlInit false) c3WitnessOps).poisoned = false ∧
    (∀ it ∈ (applyOps (tlInit false) c3WitnessOps).items,
      it.position + it.dur ≤ (applyOps (tlInit false) c3WitnessOps).duration) :=
  ⟨by decide, by decide,
    c3_totalDuration_invariant c3WitnessOps false (by decide) (by decide)⟩

/-! ## C8: repeat/yoyo cycle shape and infinite repeat -/

theorem cycleTime_yoyo (d : ℚ) (hd : d ≠ 0) : cycleTime (yoyoCfg d) = d := by
  have h0 : cycleTime (yoyoCfg d) =
      if d + 0 ≠ 0 then d + 0 else if d ≠ 0 then d else 1/1000000 := rfl
  rw [h0, add_zero, if_pos hd]

theorem tickCycle_rise (d t : ℚ) (hd : 0 < d) (h0 : 0 ≤ t) (h1 : t < d) :
    tickCycle (yoyoCfg d) t = 0 := by
  unfold tickCycle
  rw [cycleTime_yoyo d hd.ne']
  have ha : (0:ℚ) ≤ t / d := div_nonneg h0 hd.le
  rw [max_eq_right ha, Int.floor_eq_zero_iff]
  exact Set.mem_Ico.mpr ⟨ha, (div_lt_one hd).mpr h1⟩

theorem tickCycle_fall (d t : ℚ) (hd : 0 < d) (h0 : d ≤ t) (h1 : t < 2 * d) :
    tickCycle (yoyoCfg d) t = 1 := by
  unfold tickCycle
  rw [cycleTime_yoyo d hd.ne']
  have ht0 : (0:ℚ) ≤ t := hd.le.trans h0
  rw [max_eq_right (div_nonneg ht0 hd.le)]
  refine Int.floor_eq_iff.mpr ⟨?_, ?_⟩
  · push_cast
    exact (one_le_div hd).mpr h0
  · push_cast
    rw [div_lt_iff hd]
    linarith

theorem tickLocalT_rise (d t : ℚ) (hd6 : 1/1000000 ≤ d) (h0 : 0 ≤ t) (h1 : t < d) :
    tickLocalT (yoyoCfg d) t = t / d := by
  have hd : 0 < d := lt_of_lt_of_le (by norm_num) hd6
  unfold tickLocalT
  rw [tickCycle_rise d t hd h0 h1, cycleTime_yoyo d hd.ne',
    show (yoyoCfg d).duration = d from rfl, max_eq_right hd6]
  rw [Int.cast_zero, zero_mul, sub_zero]

theorem tickLocalT_fall (d t : ℚ) (hd6 : 1/1000000 ≤ d) (h0 : d ≤ t) (h1 : t < 2 * d) :
    tickLocalT (yoyoCfg d) t = (t - d) / d := by
  have hd : 0 < d := lt_of_lt_of_le (by norm_num) hd6
  unfold tickLocalT
  rw [tickCycle_fall d t hd h0 h1, cycleTime_yoyo d hd.ne',
    show (yoyoCfg d).duration = d from rfl, max_eq_right hd6]
  rw [Int.cast_one, one_mul]

theorem tickCyclePair_rise (d t : ℚ) (hd6 : 1/1000000 ≤ d) (h0 : 0 ≤ t) (h1 : t < d) :
    tickCyclePair (yoyoCfg d) t = (0, t / d) := by
  have hd : 0 < d := lt_of_lt_of_le (by norm_num) hd6
  have hm : tickCyclePair (yoyoCfg d) t =
      if 0 < 1 ∧ (1:ℤ) < tickCycle (yoyoCfg d) t then ((1:ℤ), (1:ℚ))
      else (tickCycle (yoyoCfg d) t, tickLocalT (yoyoCfg d) t) := rfl
  rw [hm, tickCycle_rise d t hd h0 h1, tickLocalT_rise d t hd6 h0 h1]
  rw [if_neg (by norm_num : ¬((0:ℕ) < 1 ∧ (1:ℤ) < 0))]

theorem tickCyclePair_fall (d t : ℚ) (hd6 : 1/1000000 ≤ d) (h0 : d ≤ t) (h1 : t < 2 * d) :
    tickCyclePair (yoyoCfg d) t = (1, (t - d) / d) := by
  have hd : 0 < d := lt_of_lt_of_le (by norm_num) hd6
  have hm : tickCyclePair (yoyoCfg d) t =
      if 0 < 1 ∧ (1:ℤ) < tickCycle (yoyoCfg d) t then ((1:ℤ), (1:ℚ))
      else (tickCycle (yoyoCfg d) t, tickLocalT (yoyoCfg d) t) := rfl
  rw [hm, tickCycle_fall d t hd h0 h1, tickLocalT_fall d t hd6 h0 h1]
  rw [if_neg (by norm_num : ¬((0:ℕ) < 1 ∧ (1:ℤ) < 1))]

theorem tickProgress_rise (d t : ℚ) (hd6 : 1/1000000 ≤ d) (h0 : 0 ≤ t) (h1 : t < d) :
    tickProgress (yoyoCfg d) t = t / d := by
  have hd : 0 < d := lt_of_lt_of_le (by norm_num) hd6
  have hp : tickProgress (yoyoCfg d) t =
      clamp
        (if (yoyoCfg d).yoyo && decide ((tickCyclePair (yoyoCfg d) t).1 % 2 = 1) then
          1 - (tickCyclePair (yoyoCfg d) t).2
         else (tickCyclePair (yoyoCfg d) t).2) 0 1 := rfl
  have hfst : (tickCyclePair (yoyoCfg d) t).1 = 0 := by
    rw [tickCyclePair_rise d t hd6 h0 h1]
  have hsnd : (tickCyclePair (yoyoCfg d) t).2 = t / d := by
    rw [tickCyclePair_rise d t hd6 h0 h1]
  rw [hp, hfst, hsnd, show (yoyoCfg d).yoyo = true from rfl]
  rw [show (true && decide ((0:ℤ) % 2 = 1)) = false from by decide]
  rw [if_neg Bool.false_ne_true]
  exact clamp_eq_self _ (div_nonneg h0 hd.le) ((div_lt_one hd).mpr h1).le

theorem tickProgress_fall (d t : ℚ) (hd6 : 1/1000000 ≤ d) (h0 : d ≤ t) (h1 : t < 2 * d) :
    tickProgress (yoyoCfg d) t = 1 - (t - d) / d := by
  have hd : 0 < d := lt_of_lt_of_le (by norm_num) hd6
  have hp : tickProgress (yoyoCfg d) t =
      clamp
        (if (yoyoCfg d).yoyo && decide ((tickCyclePair (yoyoCfg d) t).1 % 2 = 1) then
          1 - (tickCyclePair (yoyoCfg d) t).2
         else (tickCyclePair (yoyoCfg d) t).2) 0 1 := rfl
  have hfst : (tickCyclePair (yoyoCfg d) t).1 = 1 := by
    rw [tickCyclePair_fall d t hd6 h0 h1]
  have hsnd : (tickCyclePair (yoyoCfg d) t).2 = (t - d) / d := by
    rw [tickCyclePair_fall d t hd6 h0 h1]
  rw [hp, hfst, hsnd, show (yoyoCfg d).yoyo = true from rfl]
  rw [show (true && decide ((1:ℤ) % 2 = 1)) = true from by decide]
  rw [if_pos rfl]
  have hq0 : (0:ℚ) ≤ (t - d) / d := div_nonneg (by linarith) hd.le
  have hq1 : (t - d) / d ≤ 1 := by
    rw [div_le_one hd]
    linarith
  exact clamp_eq_self _ (by linarith) (by linarith)

/-- C8 (amended): with repeat = 1 and yoyo = true (and duration at
least the scheduler's 1e-6 clamp), progress equals t/d on the first
cycle [0,d) — rising monotonically from 0 toward 1 — and equals
1 − (t−d)/d on the second, equal-length cycle [d,2d) — falling
monotonically from 1 toward 0; and with repeat = Infinity a tween with
at least one target never satisfies the all-targets-done condition, so
it never fires onCompleteAll and never self-unregisters. The claim as
stated fails only for a tween with an empty target list, for which the
every-quantified condition is vacuously true. -/
theorem c8_repeat_yoyo :
    (∀ d t : ℚ, 1/1000000 ≤ d → 0 ≤ t → t < d →
      tickProgress (yoyoCfg d) t = t / d) ∧
    (∀ d t : ℚ, 1/1000000 ≤ d → d ≤ t → t < 2 * d →
      tickProgress (yoyoCfg d) t = 1 - (t - d) / d) ∧
    (∀ d u v : ℚ, 1/1000000 ≤ d → 0 ≤ u → u ≤ v → v < d →
      tickProgress (yoyoCfg d) u ≤ tickProgress (yoyoCfg d) v) ∧
    (∀ d u v : ℚ, 1/1000000 ≤ d → d ≤ u → u ≤ v → v < 2 * d →
      tickProgress (yoyoCfg d) v ≤ tickProgress (yoyoCfg d) u) ∧
    (∀ (c : TickCfg) (stags : List ℚ) (elapsed : ℚ) (hasCb : Bool),
      c.repeatCount = none → stags ≠ [] →
      tickSelfUnregisters c stags elapsed = false ∧
      tickFiresCompleteAll c stags elapsed hasCb = false) := by
  refine ⟨tickProgress_rise, tickProgress_fall, ?_, ?_, ?_⟩
  · intro d u v hd6 h0 huv hvd
    have hd : 0 < d := lt_of_lt_of_le (by norm_num) hd6
    rw [tickProgress_rise d u hd6 h0 (lt_of_le_of_lt huv hvd),
      tickProgress_rise d v hd6 (h0.trans huv) hvd]
    exact (div_le_div_right hd).mpr huv
  · intro d u v hd6 h0 huv hvd
    have hd : 0 < d := lt_of_lt_of_le (by norm_num) hd6
    rw [tickProgress_fall d u hd6 h0 (lt_of_le_of_lt huv hvd),
      tickProgress_fall d v hd6 (h0.trans huv) hvd]
    have : (u - d) / d ≤ (v - d) / d := (div_le_div_right hd).mpr (by linarith)
    linarith
  · intro c stags elapsed hasCb hrep hne
    have hdone : allTargetsDone c stags elapsed = false := by
      cases stags with
      | nil => exact absurd rfl hne
      | cons a l => simp [allTargetsDone, itemDone, hrep]
    constructor
    · unfold tickSelfUnregisters
      exact hdone
    · unfold tickFiresCompleteAll
      rw [hdone]
      rfl

/-- C8 witness: the rising formula at d = 1, t = 1/2 and the
infinite-repeat non-completion at a one-target tween. -/
theorem c8_repeat_yoyo_witness :
    ((1/1000000 : ℚ) ≤ 1 ∧ (0:ℚ) ≤ 1/2 ∧ (1/2:ℚ) < 1 ∧
      tickProgress (yoyoCfg 1) (1/2) = (1/2) / 1) ∧
    ((infCfg 1).repeatCount = none ∧ ([(0:ℚ)] ≠ []) ∧
      tickSelfUnregisters (infCfg 1) [0] 5 = false) :=
  ⟨⟨by norm_num, by norm_num, by norm_num,
      c8_repeat_yoyo.1 1 (1/2) (by norm_num) (by norm_num) (by norm_num)⟩,
    ⟨rfl, by simp,
      (c8_repeat_yoyo.2.2.2.2 (infCfg 1) [0] 5 true rfl (by simp)).1⟩⟩

end Animix
